import Mathlib

/-!
Verification development for the snippetbox web application
(`internal/models/snippets.go` plus the `main` package handlers and
helpers).  The data-access layer is embedded shallowly: the snippets
table is a list of rows, MySQL timestamps are integers counting seconds,
and the fallible parts of the `database/sql` driver (statement
execution, row scanning, cursor iteration) are modelled by explicit
fault parameters so that every error path of the Go code is a reachable
branch of the Lean function.
-/

set_option linter.unusedVariables false

/-- The `Snippet` struct of `internal/models/snippets.go`: its fields
mirror the columns of the MySQL `snippets` table
`(id, title, content, created, expires)`.  Timestamps are integers
(seconds). -/
structure Snippet where
  ID : Int
  title : String
  content : String
  created : Int
  expires : Int
deriving DecidableEq, Repr

/-- The persistent state behind the `SnippetModel`: the rows of the
`snippets` table together with the auto-increment counter that MySQL
uses to assign the primary key of the next inserted row. -/
structure Storage where
  rows : List Snippet
  nextId : Int
deriving DecidableEq, Repr

/-- Well-formedness of the storage: `id` is an auto-assigned primary
key, so every stored row has an identifier strictly below the
auto-increment counter. -/
def Storage.WF (st : Storage) : Prop :=
  ∀ r ∈ st.rows, r.ID < st.nextId

instance (st : Storage) : Decidable st.WF := by
  unfold Storage.WF; infer_instance

/-- The caller-visible error taxonomy of the models package:
`errNoRecord` is the sentinel `ErrNoRecord = errors.New("models: no
matching record found")`, and `storageError` stands for any other
(driver) error, carrying its message. -/
inductive ModelError where
  | errNoRecord : ModelError
  | storageError : String → ModelError
deriving DecidableEq, Repr

/-- `DATE_ADD(t, INTERVAL d DAY)` at one-second granularity. -/
def addDays (t d : Int) : Int := t + d * 86400

/-- Semantics of the prepared insert statement
`INSERT INTO snippets(title, content, created, expires)
VALUES(?, ?, NOW(), DATE_ADD(NOW(), INTERVAL ? DAY))`:
appends a row with the auto-assigned id, `created = now` and
`expires = now + expires days`. -/
def insertStmtExec (tbl : List Snippet) (nid : Int)
    (title content : String) (expires : Int) (now : Int) : List Snippet :=
  tbl ++ [⟨nid, title, content, now, addDays now expires⟩]

/-- Semantics of the prepared get statement
`SELECT id, title, content, created, expires FROM snippets
WHERE expires > NOW() AND id = ?`. -/
def getStmtQuery (tbl : List Snippet) (now id : Int) : List Snippet :=
  tbl.filter (fun r => decide (now < r.expires) && decide (r.ID = id))

/-- Insert a row into a list that is sorted by descending id. -/
def insertDesc (r : Snippet) : List Snippet → List Snippet
  | [] => [r]
  | x :: xs => if x.ID ≤ r.ID then r :: x :: xs else x :: insertDesc r xs

/-- Sort rows by descending id (`ORDER BY id DESC`; the primary key is
unique, so the ordering is total on any well-formed table). -/
def sortByIdDesc : List Snippet → List Snippet
  | [] => []
  | x :: xs => insertDesc x (sortByIdDesc xs)

/-- Semantics of the prepared latest statement
`SELECT id, title, content, created, expires FROM snippets
ORDER BY id DESC LIMIT 10`.  Note that this final, prepared version of
the query has no `WHERE expires > NOW()` clause (the superseded
text-query prototype kept in comments does have one). -/
def latestStmtQuery (tbl : List Snippet) : List Snippet :=
  (sortByIdDesc tbl).take 10

namespace SnippetModel

/-- `SnippetModel.Insert`.  `execFault` models `Exec` returning an
error (the statement then has no effect on the table) and `lastIdFault`
models `LastInsertId` failing after a successful execution.  The result
mirrors the Go return value `(int, error)` together with the storage
state after the call. -/
def Insert (execFault lastIdFault : Option String) (st : Storage)
    (now : Int) (title content : String) (expires : Int) :
    Storage × Int × Option ModelError :=
  match execFault with
  | some msg => (st, 0, some (.storageError msg))
  | none =>
    let st' : Storage :=
      { rows := insertStmtExec st.rows st.nextId title content expires now
        nextId := st.nextId + 1 }
    match lastIdFault with
    | some msg => (st', 0, some (.storageError msg))
    | none => (st', st.nextId, none)

/-- `SnippetModel.Get`.  `scanFault` models `row.Scan` failing with a
driver error; when the driver is healthy, an empty result set is
`sql.ErrNoRows`, which the code translates to `ErrNoRecord`.  The
result mirrors the Go return value `(*Snippet, error)`. -/
def Get (scanFault : Option String) (st : Storage) (now id : Int) :
    Option Snippet × Option ModelError :=
  match scanFault with
  | some msg => (none, some (.storageError msg))
  | none =>
    match getStmtQuery st.rows now id with
    | [] => (none, some .errNoRecord)
    | s :: _ => (some s, none)

/-- Driver behaviour of the `sql.Rows` cursor returned by the latest
query: `broken = some (n, msg)` means `rows.Next` stops delivering rows
after the first `n` and `rows.Err()` then reports `msg`; `scanFault i`
models `rows.Scan` failing on the i-th delivered row. -/
structure Cursor where
  broken : Option (Nat × String)
  scanFault : Nat → Option String

/-- A healthy cursor: full iteration, no scan errors, `rows.Err() = nil`. -/
def noFaults : Cursor := ⟨none, fun _ => none⟩

/-- The `for rows.Next()` loop body of `Latest`: scan each delivered
row into a fresh `Snippet` and append it to the slice, stopping with
the scan error if one occurs. -/
def latestLoop (scanFault : Nat → Option String) :
    List Snippet → Nat → List Snippet → Except ModelError (List Snippet)
  | [], _, acc => .ok acc
  | r :: rest, i, acc =>
    match scanFault i with
    | some msg => .error (.storageError msg)
    | none => latestLoop scanFault rest (i + 1) (acc ++ [r])

/-- `SnippetModel.Latest`.  `queryFault` models `Query` itself failing.
Otherwise the loop drains the cursor, and after the loop the code
checks `rows.Err()`; a terminal cursor error fails the whole call even
though rows were already mapped.  The result mirrors the Go return
value `([]*Snippet, error)` (with `none` for a nil slice). -/
def Latest (queryFault : Option String) (cur : Cursor) (st : Storage) :
    Option (List Snippet) × Option ModelError :=
  match queryFault with
  | some msg => (none, some (.storageError msg))
  | none =>
    let delivered : List Snippet :=
      match cur.broken with
      | some (n, _) => (latestStmtQuery st.rows).take n
      | none => latestStmtQuery st.rows
    match latestLoop cur.scanFault delivered 0 [] with
    | .error e => (none, some e)
    | .ok snippets =>
      match cur.broken with
      | some (_, msg) => (none, some (.storageError msg))
      | none => (some snippets, none)

end SnippetModel

/-- `http.StatusText` for the status codes the application uses. -/
def statusText (code : Nat) : String :=
  if code = 200 then "OK"
  else if code = 303 then "See Other"
  else if code = 404 then "Not Found"
  else if code = 405 then "Method Not Allowed"
  else if code = 500 then "Internal Server Error"
  else ""

/-- The client-visible part of an HTTP response: status code, the
headers the handlers set explicitly (`Allow`, `Location`), and the
body. -/
structure Response where
  status : Nat
  headers : List (String × String)
  body : String
deriving DecidableEq, Repr

/-- The `clientError` helper: `http.Error(w, http.StatusText(status),
status)` on a response writer whose header map already holds `hdrs`.
`http.Error` appends a newline to the body text. -/
def clientError (hdrs : List (String × String)) (status : Nat) : Response :=
  { status := status, headers := hdrs, body := statusText status ++ "\n" }

/-- The `notFound` helper: `clientError(w, http.StatusNotFound)`. -/
def notFound (hdrs : List (String × String)) : Response :=
  clientError hdrs 404

/-- A server-side log record: the message written and the calldepth
passed to `errorLog.Output`, which controls which stack frame the
record is attributed to (2 = the caller of `serverError`, not
`serverError` itself). -/
structure LogRecord where
  calldepth : Nat
  message : String
deriving DecidableEq, Repr

/-- The client-visible response of the `serverError` helper:
`http.Error(w, http.StatusText(http.StatusInternalServerError),
http.StatusInternalServerError)`. -/
def serverErrorResponse : Response :=
  { status := 500, headers := [], body := statusText 500 ++ "\n" }

/-- The `serverError` helper.  `errMsg` is `err.Error()` and `stack`
is the `debug.Stack()` trace at the call.  It logs
`fmt.Sprintf("%s\n%s", err.Error(), debug.Stack())` through
`errorLog.Output(2, trace)` and sends the generic 500 response. -/
def serverError (errMsg stack : String) : Response × LogRecord :=
  ({ status := 500, headers := [], body := statusText 500 ++ "\n" },
   { calldepth := 2, message := errMsg ++ "\n" ++ stack })

/-- Value of a nonempty all-digit character list, accumulator style;
`none` as soon as a non-digit appears. -/
def digitsVal : List Char → Nat → Option Nat
  | [], acc => some acc
  | c :: cs, acc =>
    if c.isDigit then digitsVal cs (acc * 10 + (c.toNat - 48)) else none

/-- `strconv.Atoi`: an optional sign followed by at least one digit;
anything else (including the empty string of a missing query
parameter) is a parse error. -/
def atoi (s : String) : Option Int :=
  match s.data with
  | [] => none
  | '-' :: cs => if cs.isEmpty then none else (digitsVal cs 0).map (fun n => -(n : Int))
  | '+' :: cs => if cs.isEmpty then none else (digitsVal cs 0).map (fun n => (n : Int))
  | cs => (digitsVal cs 0).map (fun n => (n : Int))

/-- `fmt.Sprintf("%+v", s)` on a `*models.Snippet` value. -/
def formatSnippet (s : Snippet) : String :=
  "&\x7bID:" ++ toString s.ID ++ " title:" ++ s.title
    ++ " content:" ++ s.content ++ " created:" ++ toString s.created
    ++ " expires:" ++ toString s.expires ++ "\x7d"

/-- Body written by `fmt.Fprintf(w, "%+v", snippet)` (a nil pointer
would print `<nil>`). -/
def viewBody : Option Snippet → String
  | some s => formatSnippet s
  | none => "<nil>"

/-- The `snippetView` handler.  `idParam` is
`r.URL.Query().Get("id")` (the empty string when the parameter is
missing).  The second component counts how many times the handler
called `Repository.Get`. -/
def snippetView (scanFault : Option String) (st : Storage) (now : Int)
    (idParam : String) : Response × Nat :=
  match atoi idParam with
  | none => (notFound [], 0)
  | some id =>
    if id < 1 then (notFound [], 0)
    else
      let res := SnippetModel.Get scanFault st now id
      match res.2 with
      | some .errNoRecord => (notFound [], 1)
      | some (.storageError _) => (serverErrorResponse, 1)
      | none => ({ status := 200, headers := [], body := viewBody res.1 }, 1)

/-- The `snippetCreate` handler: on any method other than POST it sets
the `Allow` header and sends `clientError(w, 405)` without touching the
repository; on POST it inserts the dummy snippet and redirects (303)
to the view URL of the new id.  The second component is the storage
state after the request. -/
def snippetCreate (execFault lastIdFault : Option String) (st : Storage)
    (now : Int) (method : String) : Response × Storage :=
  if method ≠ "POST" then
    (clientError [("Allow", "POST")] 405, st)
  else
    let res := SnippetModel.Insert execFault lastIdFault st now "O snail"
      "O snail\nClimb Mount Fuji,\nBut slowly, slowly!\n\n- Kobayashi Issa" 7
    match res.2.2 with
    | some _ => (serverErrorResponse, res.1)
    | none =>
      ({ status := 303
         headers := [("Location", "/snippet/view?id=" ++ toString res.2.1)]
         body := "" }, res.1)

/-! ## Helper lemmas -/

theorem insertDesc_perm (r : Snippet) (l : List Snippet) :
    List.Perm (insertDesc r l) (r :: l) := by
  induction l with
  | nil => exact List.Perm.refl _
  | cons x xs ih =>
    unfold insertDesc
    by_cases hc : x.ID ≤ r.ID
    · rw [if_pos hc]
    · rw [if_neg hc]
      exact (ih.cons x).trans (List.Perm.swap r x xs)

theorem sortByIdDesc_perm (l : List Snippet) :
    List.Perm (sortByIdDesc l) l := by
  induction l with
  | nil => exact List.Perm.refl _
  | cons x xs ih => exact (insertDesc_perm x _).trans (ih.cons x)

theorem pairwise_insertDesc {r : Snippet} {l : List Snippet}
    (h : l.Pairwise (fun a b => b.ID ≤ a.ID)) :
    (insertDesc r l).Pairwise (fun a b => b.ID ≤ a.ID) := by
  induction l with
  | nil => simp [insertDesc]
  | cons x xs ih =>
    rcases List.pairwise_cons.mp h with ⟨hx, hxs⟩
    unfold insertDesc
    by_cases hc : x.ID ≤ r.ID
    · rw [if_pos hc]
      refine List.Pairwise.cons ?_ h
      intro y hy
      rcases List.mem_cons.mp hy with rfl | hy'
      · exact hc
      · exact le_trans (hx y hy') hc
    · rw [if_neg hc]
      refine List.Pairwise.cons ?_ (ih hxs)
      intro y hy
      rcases List.mem_cons.mp ((insertDesc_perm r xs).mem_iff.mp hy) with rfl | hy'
      · exact le_of_not_le hc
      · exact hx y hy'

theorem sortByIdDesc_pairwise (l : List Snippet) :
    (sortByIdDesc l).Pairwise (fun a b => b.ID ≤ a.ID) := by
  induction l with
  | nil => simp [sortByIdDesc]
  | cons x xs ih => exact pairwise_insertDesc ih

theorem latestLoop_no_fault (rows : List Snippet) (i : Nat) (acc : List Snippet) :
    SnippetModel.latestLoop (fun _ => none) rows i acc = .ok (acc ++ rows) := by
  induction rows generalizing i acc with
  | nil => simp [SnippetModel.latestLoop]
  | cons r rest ih => simp [SnippetModel.latestLoop, ih]

theorem latestLoop_ok {sf : Nat → Option String} (rows : List Snippet)
    (i : Nat) (acc out : List Snippet)
    (h : SnippetModel.latestLoop sf rows i acc = .ok out) : out = acc ++ rows := by
  induction rows generalizing i acc with
  | nil => simpa [SnippetModel.latestLoop] using h.symm
  | cons r rest ih =>
    unfold SnippetModel.latestLoop at h
    cases hsf : sf i with
    | some msg => rw [hsf] at h; exact absurd h (by simp)
    | none =>
      rw [hsf] at h
      simpa using ih (i + 1) (acc ++ [r]) h

/-! ## Claim theorems -/

/-- C1 (code bug): the final, prepared `Latest` statement has no
`WHERE expires > NOW()` clause, so `Latest()` returns snippets whose
expiry timestamp is in the past.  On a healthy store holding the single
snippet with `expires = 5`, `Latest()` returns that snippet even though
its expiry `5` is before a call time of `10`. -/
theorem latest_returns_expired_snippet :
    (SnippetModel.Latest none SnippetModel.noFaults
        { rows := [⟨1, "t", "c", 0, 5⟩], nextId := 2 }).1
      = some [⟨1, "t", "c", 0, 5⟩]
    ∧ (5 : Int) < 10 := by
  constructor
  · rfl
  · decide

/-- C4: whenever the cursor reports a terminal error after iteration
(`rows.Err() ≠ nil`, modelled by `broken = some (n, msg)`), the whole
`Latest()` call fails with a generic storage error and no partial list
of the `n` already-mapped rows is returned as a success. -/
theorem latest_cursor_error_fails (st : Storage) (n : Nat) (msg : String) :
    SnippetModel.Latest none ⟨some (n, msg), fun _ => none⟩ st
      = (none, some (.storageError msg)) := by
  simp [SnippetModel.Latest, latestLoop_no_fault]

/-- C9: the client-visible response of `serverError` is the same
generic 500 response for every pair of errors and stack traces (no
internal detail reaches the client), while the server-side log record
carries the error description followed by the full stack trace and is
written with calldepth 2, attributing it to the caller of
`serverError` rather than to `serverError` itself. -/
theorem server_fault_generic_response (e1 s1 e2 s2 : String) :
    (serverError e1 s1).1 = (serverError e2 s2).1
    ∧ (serverError e1 s1).1 = serverErrorResponse
    ∧ (serverError e1 s1).2.message = e1 ++ "\n" ++ s1
    ∧ (serverError e1 s1).2.calldepth = 2 :=
  ⟨rfl, rfl, rfl, rfl⟩

/-- C8: a request to the create endpoint with any method other than
POST yields status 405 with the `Allow: POST` header set, and the
storage state is returned unchanged (no record inserted). -/
theorem create_wrong_method_405 (ef lf : Option String) (st : Storage)
    (now : Int) (method : String) (h : method ≠ "POST") :
    snippetCreate ef lf st now method
      = ({ status := 405, headers := [("Allow", "POST")]
           body := statusText 405 ++ "\n" }, st) := by
  simp [snippetCreate, h, clientError]

/-- C8 witness: a GET request to the create endpoint on an empty store. -/
theorem create_wrong_method_405_witness :
    snippetCreate none none ⟨[], 1⟩ 0 "GET"
      = ({ status := 405, headers := [("Allow", "POST")]
           body := statusText 405 ++ "\n" }, ⟨[], 1⟩) :=
  create_wrong_method_405 none none ⟨[], 1⟩ 0 "GET" (by decide)

/-- C10: whenever `Get(id)` succeeds, the identifier of the returned
snippet equals the requested `id` (the query filters on the primary
key). -/
theorem get_returns_requested_id (sf : Option String) (st : Storage)
    (now id : Int) (s : Snippet)
    (h : SnippetModel.Get sf st now id = (some s, none)) : s.ID = id := by
  cases sf with
  | some msg => simp [SnippetModel.Get] at h
  | none =>
    unfold SnippetModel.Get at h
    cases hq : getStmtQuery st.rows now id with
    | nil => rw [hq] at h; simp at h
    | cons a l =>
      rw [hq] at h
      simp at h
      have ha : a ∈ getStmtQuery st.rows now id := by rw [hq]; exact List.mem_cons_self a l
      have := List.of_mem_filter ha
      simp only [Bool.and_eq_true, decide_eq_true_eq] at this
      rw [← h]
      exact this.2

/-- C10 witness: getting the live snippet with id 1 returns id 1. -/
theorem get_returns_requested_id_witness :
    (⟨1, "t", "c", 0, 100⟩ : Snippet).ID = 1 :=
  get_returns_requested_id none ⟨[⟨1, "t", "c", 0, 100⟩], 2⟩ 0 1
    ⟨1, "t", "c", 0, 100⟩ (by rfl)

theorem getStmtQuery_eq_nil (st : Storage) (now id : Int)
    (h : ∀ r ∈ st.rows, r.ID = id → r.expires ≤ now) :
    getStmtQuery st.rows now id = [] := by
  apply List.filter_eq_nil_iff.mpr
  intro r hr
  simp only [Bool.and_eq_true, decide_eq_true_eq, not_and]
  intro hlt hid
  exact absurd hlt (not_lt.mpr (h r hr hid))

theorem pairwise_and_of {α : Type} {R S : α → α → Prop} :
    ∀ {l : List α}, l.Pairwise R → l.Pairwise S →
      l.Pairwise fun a b => R a b ∧ S a b
  | [], _, _ => List.Pairwise.nil
  | x :: xs, h1, h2 => by
    rcases List.pairwise_cons.mp h1 with ⟨hx1, hxs1⟩
    rcases List.pairwise_cons.mp h2 with ⟨hx2, hxs2⟩
    exact List.Pairwise.cons (fun y hy => ⟨hx1 y hy, hx2 y hy⟩)
      (pairwise_and_of hxs1 hxs2)

theorem Latest_success_or_failure (qf : Option String)
    (cur : SnippetModel.Cursor) (st : Storage) :
    (SnippetModel.Latest qf cur st = (some (latestStmtQuery st.rows), none)
      ∧ qf = none ∧ cur.broken = none)
    ∨ ∃ e, SnippetModel.Latest qf cur st = (none, some e) := by
  unfold SnippetModel.Latest
  cases qf with
  | some m => right; exact ⟨_, rfl⟩
  | none =>
    cases hb : cur.broken with
    | some p =>
      obtain ⟨n, msg⟩ := p
      right
      cases hloop : SnippetModel.latestLoop cur.scanFault
          ((latestStmtQuery st.rows).take n) 0 [] with
      | error e => exact ⟨e, by simp [hb, hloop]⟩
      | ok s => exact ⟨.storageError msg, by simp [hb, hloop]⟩
    | none =>
      cases hloop : SnippetModel.latestLoop cur.scanFault
          (latestStmtQuery st.rows) 0 [] with
      | error e => right; exact ⟨e, by simp [hb, hloop]⟩
      | ok s =>
        left
        have hs := latestLoop_ok _ _ _ _ hloop
        simp at hs
        exact ⟨by simp [hb, hloop, hs], rfl, rfl⟩

/-- C3: for every identifier that is absent from storage or whose
snippet has expired at call time, `Get` on a healthy driver fails with
the `ErrNoRecord` sentinel, and that error kind is distinct from every
generic storage error, so callers can branch without inspecting
message strings. -/
theorem get_absent_or_expired_errNoRecord (st : Storage) (now id : Int)
    (h : ∀ r ∈ st.rows, r.ID = id → r.expires ≤ now) :
    SnippetModel.Get none st now id = (none, some .errNoRecord)
    ∧ ∀ msg, ModelError.errNoRecord ≠ ModelError.storageError msg := by
  constructor
  · simp [SnippetModel.Get, getStmtQuery_eq_nil st now id h]
  · intro msg hne
    cases hne

/-- C3 witness: id 3 is absent and id 1 is expired at time 10 in a
store holding only the snippet with id 1 and expiry 5. -/
theorem get_absent_or_expired_errNoRecord_witness :
    SnippetModel.Get none ⟨[⟨1, "t", "c", 0, 5⟩], 2⟩ 10 3
        = (none, some .errNoRecord)
    ∧ ∀ msg, ModelError.errNoRecord ≠ ModelError.storageError msg :=
  get_absent_or_expired_errNoRecord ⟨[⟨1, "t", "c", 0, 5⟩], 2⟩ 10 3 (by decide)

/-- C2: on a well-formed store, a fault-free `Insert` of any title and
content with a positive expiry returns an identifier for which an
immediately following `Get` succeeds and returns a snippet with the
inserted title and content. -/
theorem insert_get_roundtrip (st : Storage) (now : Int)
    (title content : String) (expires : Int)
    (hWF : st.WF) (hexp : 1 ≤ expires) :
    (SnippetModel.Insert none none st now title content expires).2.2 = none
    ∧ ∃ s : Snippet,
        SnippetModel.Get none
            (SnippetModel.Insert none none st now title content expires).1
            now (SnippetModel.Insert none none st now title content expires).2.1
          = (some s, none)
        ∧ s.title = title ∧ s.content = content := by
  have hins : SnippetModel.Insert none none st now title content expires
      = ({ rows := st.rows ++ [⟨st.nextId, title, content, now, addDays now expires⟩]
           nextId := st.nextId + 1 }, st.nextId, none) := by
    simp [SnippetModel.Insert, insertStmtExec]
  refine ⟨by rw [hins], ⟨st.nextId, title, content, now, addDays now expires⟩, ?_, rfl, rfl⟩
  rw [hins]
  have hq : getStmtQuery
      (st.rows ++ [⟨st.nextId, title, content, now, addDays now expires⟩])
      now st.nextId
      = [⟨st.nextId, title, content, now, addDays now expires⟩] := by
    unfold getStmtQuery
    rw [List.filter_append]
    have h1 : st.rows.filter
        (fun r => decide (now < r.expires) && decide (r.ID = st.nextId)) = [] := by
      apply List.filter_eq_nil_iff.mpr
      intro r hr
      simp only [Bool.and_eq_true, decide_eq_true_eq, not_and]
      intro _ hid
      exact absurd hid (ne_of_lt (hWF r hr))
    have hlt : now < addDays now expires := by
      unfold addDays
      nlinarith
    rw [h1]
    simp [hlt]
  simp [SnippetModel.Get, hq]

/-- C2 witness: inserting into the empty store at time 0 with a
seven-day expiry and immediately getting the returned id. -/
theorem insert_get_roundtrip_witness :
    (SnippetModel.Insert none none ⟨[], 1⟩ 0 "a title" "a content" 7).2.2 = none
    ∧ ∃ s : Snippet,
        SnippetModel.Get none
            (SnippetModel.Insert none none ⟨[], 1⟩ 0 "a title" "a content" 7).1
            0 (SnippetModel.Insert none none ⟨[], 1⟩ 0 "a title" "a content" 7).2.1
          = (some s, none)
        ∧ s.title = "a title" ∧ s.content = "a content" :=
  insert_get_roundtrip ⟨[], 1⟩ 0 "a title" "a content" 7 (by decide) (by decide)

/-- C5: on a store whose primary keys are distinct, the snippet list of
every successful `Latest()` call is sorted in strictly descending
order of identifier. -/
theorem latest_sorted_desc (qf : Option String) (cur : SnippetModel.Cursor)
    (st : Storage) (l : List Snippet)
    (hnd : (st.rows.map Snippet.ID).Nodup)
    (h : SnippetModel.Latest qf cur st = (some l, none)) :
    l.Pairwise (fun a b => b.ID < a.ID) := by
  have hl : l = latestStmtQuery st.rows := by
    rcases Latest_success_or_failure qf cur st with ⟨heq, _, _⟩ | ⟨e, heq⟩
    · rw [h] at heq
      simp only [Prod.mk.injEq, Option.some.injEq] at heq
      exact heq.1
    · rw [h] at heq
      simp at heq
  subst hl
  have hle := sortByIdDesc_pairwise st.rows
  have hnd2 : ((sortByIdDesc st.rows).map Snippet.ID).Nodup :=
    ((sortByIdDesc_perm st.rows).map Snippet.ID).nodup_iff.mpr hnd
  have hne : (sortByIdDesc st.rows).Pairwise (fun a b => a.ID ≠ b.ID) :=
    List.pairwise_map.mp hnd2
  have hstrict : (sortByIdDesc st.rows).Pairwise (fun a b => b.ID < a.ID) :=
    (pairwise_and_of hle hne).imp (fun hab => lt_of_le_of_ne hab.1 hab.2.symm)
  exact hstrict.sublist (List.take_sublist 10 _)

/-- C5 witness: a two-snippet store listed by `Latest()` comes back
with ids 2 then 1. -/
theorem latest_sorted_desc_witness :
    ([⟨2, "b", "x", 0, 9⟩, ⟨1, "a", "x", 0, 9⟩] : List Snippet).Pairwise
      (fun a b => b.ID < a.ID) :=
  latest_sorted_desc none SnippetModel.noFaults
    ⟨[⟨1, "a", "x", 0, 9⟩, ⟨2, "b", "x", 0, 9⟩], 3⟩
    [⟨2, "b", "x", 0, 9⟩, ⟨1, "a", "x", 0, 9⟩] (by decide) (by decide)

/-- C6: every failure path of `Insert`, `Get` and `Latest` pairs a
non-nil error with the zero or absent result (0, nil snippet, nil
slice), and no driver fault is swallowed: a failing execution, id
retrieval, scan source, query or cursor always surfaces as a non-nil
error. -/
theorem repository_failure_zero_result (ef lf sf qf : Option String)
    (cur : SnippetModel.Cursor) (st : Storage) (now id : Int)
    (t c : String) (e : Int) :
    ((SnippetModel.Insert ef lf st now t c e).2.2 ≠ none →
        (SnippetModel.Insert ef lf st now t c e).2.1 = 0)
    ∧ (ef ≠ none ∨ lf ≠ none → (SnippetModel.Insert ef lf st now t c e).2.2 ≠ none)
    ∧ ((SnippetModel.Get sf st now id).2 ≠ none →
        (SnippetModel.Get sf st now id).1 = none)
    ∧ (sf ≠ none → (SnippetModel.Get sf st now id).2 ≠ none)
    ∧ ((SnippetModel.Latest qf cur st).2 ≠ none →
        (SnippetModel.Latest qf cur st).1 = none)
    ∧ (qf ≠ none ∨ cur.broken ≠ none → (SnippetModel.Latest qf cur st).2 ≠ none) := by
  refine ⟨?_, ?_, ?_, ?_, ?_, ?_⟩
  · cases ef with
    | some m => intro _; simp [SnippetModel.Insert]
    | none =>
      cases lf with
      | some m => intro _; simp [SnippetModel.Insert]
      | none => intro hcon; simp [SnippetModel.Insert] at hcon
  · rintro (h1 | h2)
    · cases ef with
      | some m => simp [SnippetModel.Insert]
      | none => exact absurd rfl h1
    · cases ef with
      | some m => simp [SnippetModel.Insert]
      | none =>
        cases lf with
        | some m => simp [SnippetModel.Insert]
        | none => exact absurd rfl h2
  · cases sf with
    | some m => intro _; simp [SnippetModel.Get]
    | none =>
      intro hcon
      unfold SnippetModel.Get at hcon ⊢
      cases hq : getStmtQuery st.rows now id with
      | nil => simp [hq]
      | cons a as => rw [hq] at hcon; simp at hcon
  · intro hsf
    cases sf with
    | some m => simp [SnippetModel.Get]
    | none => exact absurd rfl hsf
  · intro hcon
    rcases Latest_success_or_failure qf cur st with ⟨heq, _, _⟩ | ⟨err, heq⟩
    · rw [heq] at hcon; simp at hcon
    · rw [heq]
  · intro hor
    rcases Latest_success_or_failure qf cur st with ⟨heq, hqf, hbr⟩ | ⟨err, heq⟩
    · rcases hor with h1 | h2
      · exact absurd hqf h1
      · exact absurd hbr h2
    · rw [heq]; simp

/-- C6 witness: a failing `Exec` makes `Insert` return id 0, and a
failing `Query` makes `Latest` return a nil slice. -/
theorem repository_failure_zero_result_witness :
    (SnippetModel.Insert (some "boom") none ⟨[], 1⟩ 0 "t" "c" 7).2.1 = 0
    ∧ (SnippetModel.Latest (some "boom") SnippetModel.noFaults ⟨[], 1⟩).1 = none :=
  ⟨(repository_failure_zero_result (some "boom") none none (some "boom")
      SnippetModel.noFaults ⟨[], 1⟩ 0 1 "t" "c" 7).1 (by decide),
   (repository_failure_zero_result (some "boom") none none (some "boom")
      SnippetModel.noFaults ⟨[], 1⟩ 0 1 "t" "c" 7).2.2.2.2.1 (by decide)⟩

/-- C7: a view request whose id parameter fails to parse or is below 1
gets the 404 helper response without the repository being queried
(0 `Get` calls), and that response is literally the same as the one for
a well-formed id that matches no live snippet (where the repository is
queried once). -/
theorem view_bad_id_not_found (sf : Option String) (st : Storage) (now : Int)
    (p q : String) (id : Int)
    (hbad : atoi p = none ∨ ∃ i, atoi p = some i ∧ i < 1)
    (hq : atoi q = some id) (hpos : 1 ≤ id)
    (habsent : ∀ r ∈ st.rows, r.ID = id → r.expires ≤ now) :
    snippetView sf st now p = (notFound [], 0)
    ∧ snippetView none st now q = (notFound [], 1) := by
  constructor
  · rcases hbad with hnone | ⟨i, hsome, hlt⟩
    · simp [snippetView, hnone]
    · simp [snippetView, hsome, hlt]
  · have hnlt : ¬ id < 1 := not_lt.mpr hpos
    have hget : SnippetModel.Get none st now id = (none, some .errNoRecord) := by
      simp [SnippetModel.Get, getStmtQuery_eq_nil st now id habsent]
    simp [snippetView, hq, hnlt, hget]

/-- C7 witness: `id=abc` gives the 404 response without a repository
call; the absent id 7 gives the identical 404 response with one call. -/
theorem view_bad_id_not_found_witness :
    snippetView none ⟨[], 1⟩ 0 "abc" = (notFound [], 0)
    ∧ snippetView none ⟨[], 1⟩ 0 "7" = (notFound [], 1) :=
  view_bad_id_not_found none ⟨[], 1⟩ 0 "abc" "7" 7
    (Or.inl (by decide)) (by decide) (by decide) (by decide)
